import Mathlib

/-!
Shallow embedding of the batch business-registration lookup service
(src/app.py): identifier normalization, the fixed status-code message
table, the per-batch remote call wrapper check_business_registration,
and the chunked driver process_api_calls.

Remote records are opaque (type parameter), matching the spec's
StatusRecord.  The network is modelled as an oracle mapping the call
index and the chunk sent to an outcome: either a raised transport
exception (requests.exceptions.RequestException) carrying its detail
string, or an HTTP response with a status code and a JSON body holding
the optional "error" and "data" keys that app.py inspects.
-/

set_option maxRecDepth 40000

/-- Whitespace characters removed by Python str.strip (ASCII range). -/
def pyIsSpace (c : Char) : Bool :=
  c == ' ' || c == '\t' || c == '\n' || c == '\r' || c == '\u000B' || c == '\u000C'

/-- Python str.strip: drop leading and trailing whitespace. -/
def pyStrip (s : String) : String :=
  String.mk (((s.data.dropWhile pyIsSpace).reverse.dropWhile pyIsSpace).reverse)

/-- Python str.replace with a one-character pattern and an empty
replacement string deletes every occurrence of that character. -/
def removeAllChar (c : Char) (s : String) : String :=
  String.mk (s.data.filter (fun d => !(d == c)))

/-- The normalization applied to each raw token in lookup_direct and
upload_excel: num.strip().replace of hyphen by nothing and of space by
nothing (src/app.py lines 73 and 109). -/
def normalize_id (s : String) : String :=
  removeAllChar ' ' (removeAllChar '-' (pyStrip s))

/-- The list comprehension building b_numbers in lookup_direct
(src/app.py line 73): keep the lines whose strip is truthy (non-empty),
normalize each kept line. -/
def lookup_direct_numbers (b_numbers_raw : List String) : List String :=
  (b_numbers_raw.filter (fun num => !(pyStrip num == ""))).map normalize_id

/-- The STATUS_CODE_MESSAGES dict of src/app.py lines 15-21, as a
partial map from status code to message. -/
def STATUS_CODE_MESSAGES (code : Nat) : Option String :=
  if code = 400 then some "잘못된 요청 형식입니다. (API 서버가 이해할 수 없는 요청)"
  else if code = 404 then some "API 서비스를 찾을 수 없습니다. (경로 확인 필요)"
  else if code = 411 then some "필수 요청 파라미터가 누락되었습니다."
  else if code = 413 then some "요청 가능한 사업자번호 개수(100개)를 초과했습니다."
  else if code = 500 then some "국세청 API 서버에 오류가 발생했습니다. 잠시 후 다시 시도해주세요."
  else none

/-- The part of a decoded JSON body that app.py inspects: the optional
"error" and "data" keys.  Records (the StatusRecord of the spec) are
opaque, of type alpha. -/
structure ApiBody (α : Type) where
  error : Option String
  data : Option (List α)
deriving Repr, DecidableEq

/-- Outcome of one HTTP POST to the remote registry: either a raised
requests.exceptions.RequestException with its str(e) detail, or a
response with a status code and a JSON body. -/
inductive HttpOutcome (α : Type) where
  | exn (detail : String)
  | resp (status : Nat) (body : ApiBody α)
deriving Repr, DecidableEq

/-- check_business_registration (src/app.py lines 25-41) applied to the
outcome of its one HTTP call: status 200 returns the parsed body; any
other status returns a body whose "error" key is the table message or
the generic unknown-status message; a transport exception returns a
body whose "error" key embeds str(e). -/
def check_business_registration {α : Type} (outcome : HttpOutcome α) : ApiBody α :=
  match outcome with
  | HttpOutcome.resp status body =>
      if status = 200 then body
      else
        { error := some ((STATUS_CODE_MESSAGES status).getD
            ("알 수 없는 오류가 발생했습니다. (상태 코드: " ++ toString status ++ ")")),
          data := none }
  | HttpOutcome.exn e =>
      { error := some ("네트워크 오류 발생 (상세 정보): " ++ e), data := none }

/-- Python truthiness of dict.get of a string value: present and
non-empty. -/
def truthyStr : Option String → Bool
  | none => false
  | some s => !(s == "")

/-- Python truthiness of dict.get of a list value: present and
non-empty. -/
def truthyData {α : Type} : Option (List α) → Bool
  | none => false
  | some l => !l.isEmpty

/-- The chunk list of src/app.py line 46: slices of 100 starting at the
multiples of 100 below the length, i.e. the i-th chunk is the slice
from 100 * i of length at most 100, and there are ceil(length / 100)
of them. -/
def b_number_chunks (l : List String) : List (List String) :=
  (List.range ((l.length + 99) / 100)).map (fun i => (l.drop (100 * i)).take 100)

/-- The loop of process_api_calls (src/app.py lines 47-54) over the
remaining chunks, carrying the index of the next call and the
accumulated all_results: a truthy "error" key aborts with that error, a
truthy "data" key extends the accumulator. -/
def processChunks {α : Type} (api : Nat → List String → HttpOutcome α) :
    List (List String) → Nat → List α → Option (List α) × Option String
  | [], _, acc => (some acc, none)
  | chunk :: rest, i, acc =>
      let api_response := check_business_registration (api i chunk)
      if truthyStr api_response.error then
        (none, api_response.error)
      else if truthyData api_response.data then
        processChunks api rest (i + 1) (acc ++ api_response.data.getD [])
      else
        processChunks api rest (i + 1) acc

/-- process_api_calls (src/app.py lines 45-54): chunk the input and run
the loop from an empty accumulator, against the network oracle api. -/
def process_api_calls {α : Type} (business_numbers : List String)
    (api : Nat → List String → HttpOutcome α) : Option (List α) × Option String :=
  processChunks api (b_number_chunks business_numbers) 0 []

/-- The chunks actually sent over the network by the loop, in order:
every chunk up to and including the first failing one. -/
def callsMade {α : Type} (api : Nat → List String → HttpOutcome α) :
    List (List String) → Nat → List (List String)
  | [], _ => []
  | chunk :: rest, i =>
      if truthyStr (check_business_registration (api i chunk)).error then [chunk]
      else chunk :: callsMade api rest (i + 1)

/-- The chunks process_api_calls sends over the network, in order. -/
def api_calls_made {α : Type} (business_numbers : List String)
    (api : Nat → List String → HttpOutcome α) : List (List String) :=
  callsMade api (b_number_chunks business_numbers) 0

/-- The call at index i on the given chunk takes the early-exit error
branch of the loop. -/
def chunkFails {α : Type} (api : Nat → List String → HttpOutcome α)
    (i : Nat) (chunk : List String) : Bool :=
  truthyStr (check_business_registration (api i chunk)).error

/-- The records a successful call contributes to all_results. -/
def dataOf {α : Type} (api : Nat → List String → HttpOutcome α)
    (i : Nat) (chunk : List String) : List α :=
  ((check_business_registration (api i chunk)).data).getD []

/-- Concatenation of the per-chunk record lists in chunk order. -/
def collectData {α : Type} (api : Nat → List String → HttpOutcome α) :
    List (List String) → Nat → List α
  | [], _ => []
  | chunk :: rest, i => dataOf api i chunk ++ collectData api rest (i + 1)

/-! Helper lemmas about the chunking and about the loop, shared by the
claim theorems below. -/

theorem truthyStr_iff (o : Option String) :
    truthyStr o = true ↔ ∃ s, o = some s ∧ s ≠ "" := by
  cases o <;> simp [truthyStr]

theorem truthyData_false_getD {α : Type} (d : Option (List α))
    (h : truthyData d = false) : d.getD [] = [] := by
  cases d with
  | none => rfl
  | some l =>
      simp [truthyData, List.isEmpty_iff] at h
      simp [h]

theorem append_left_ne_empty (a b : String) (ha : a.data ≠ []) : a ++ b ≠ "" := by
  intro h
  have hd := congrArg String.data h
  rw [String.data_append] at hd
  exact ha (List.append_eq_nil.mp hd).1

theorem b_number_chunks_length (l : List String) :
    (b_number_chunks l).length = (l.length + 99) / 100 := by
  simp [b_number_chunks]

theorem b_number_chunks_le_100 (l : List String) (c : List String)
    (hc : c ∈ b_number_chunks l) : c.length ≤ 100 := by
  simp only [b_number_chunks, List.mem_map, List.mem_range] at hc
  obtain ⟨i, _, rfl⟩ := hc
  simp only [List.length_take]
  omega

theorem b_number_chunks_flatten (l : List String) :
    (b_number_chunks l).flatten = l := by
  have key : ∀ m, ((List.range m).map (fun i => (l.drop (100 * i)).take 100)).flatten
      = l.take (100 * m) := by
    intro m
    induction m with
    | zero => simp
    | succ m ih =>
        rw [List.range_succ, List.map_append, List.flatten_append]
        simp only [List.map_cons, List.map_nil, List.flatten_cons, List.flatten_nil,
          List.append_nil, ih]
        rw [Nat.mul_succ, List.take_add]
  rw [b_number_chunks, key]
  exact List.take_of_length_le (by omega)

theorem processChunks_success {α : Type} (api : Nat → List String → HttpOutcome α) :
    ∀ (rest : List (List String)) (i : Nat) (acc : List α),
      (∀ j, j < rest.length → chunkFails api (i + j) (rest.getD j []) = false) →
      processChunks api rest i acc = (some (acc ++ collectData api rest i), none) ∧
      callsMade api rest i = rest := by
  intro rest
  induction rest with
  | nil => intro i acc _; simp [processChunks, callsMade, collectData]
  | cons chunk rest ih =>
      intro i acc h
      have h0 : truthyStr (check_business_registration (api i chunk)).error = false := by
        have := h 0 (by simp)
        simpa [chunkFails] using this
      have hrest : ∀ j, j < rest.length →
          chunkFails api (i + 1 + j) (rest.getD j []) = false := by
        intro j hj
        have := h (j + 1) (by simp; omega)
        have e : i + (j + 1) = i + 1 + j := by omega
        simpa [e] using this
      cases hdata : truthyData (check_business_registration (api i chunk)).data with
      | true =>
          have := ih (i + 1) (acc ++ (check_business_registration (api i chunk)).data.getD []) hrest
          constructor
          · rw [show processChunks api (chunk :: rest) i acc
                = processChunks api rest (i + 1)
                    (acc ++ (check_business_registration (api i chunk)).data.getD []) by
              simp [processChunks, h0, hdata]]
            rw [this.1]
            simp [collectData, dataOf, List.append_assoc]
          · rw [show callsMade api (chunk :: rest) i = chunk :: callsMade api rest (i + 1) by
              simp [callsMade, h0]]
            rw [this.2]
      | false =>
          have := ih (i + 1) acc hrest
          constructor
          · rw [show processChunks api (chunk :: rest) i acc
                = processChunks api rest (i + 1) acc by
              simp [processChunks, h0, hdata]]
            rw [this.1]
            simp [collectData, dataOf, truthyData_false_getD _ hdata]
          · rw [show callsMade api (chunk :: rest) i = chunk :: callsMade api rest (i + 1) by
              simp [callsMade, h0]]
            rw [this.2]

theorem processChunks_failure {α : Type} (api : Nat → List String → HttpOutcome α) :
    ∀ (rest : List (List String)) (k i : Nat) (acc : List α),
      k < rest.length →
      (∀ j, j < k → chunkFails api (i + j) (rest.getD j []) = false) →
      chunkFails api (i + k) (rest.getD k []) = true →
      processChunks api rest i acc =
        (none, (check_business_registration (api (i + k) (rest.getD k []))).error) ∧
      callsMade api rest i = rest.take (k + 1) := by
  intro rest
  induction rest with
  | nil => intro k i acc hk _ _; simp at hk
  | cons chunk rest ih =>
      intro k i acc hk hprev hfail
      cases k with
      | zero =>
          have hf : truthyStr (check_business_registration (api i chunk)).error = true := by
            simpa [chunkFails] using hfail
          constructor
          · simp [processChunks, hf]
          · simp [callsMade, hf]
      | succ k =>
          have h0 : truthyStr (check_business_registration (api i chunk)).error = false := by
            have := hprev 0 (Nat.succ_pos k)
            simpa [chunkFails] using this
          have hk' : k < rest.length := by
            simpa [Nat.succ_lt_succ_iff] using hk
          have hprev' : ∀ j, j < k → chunkFails api (i + 1 + j) (rest.getD j []) = false := by
            intro j hj
            have := hprev (j + 1) (by omega)
            have e : i + (j + 1) = i + 1 + j := by omega
            simpa [e] using this
          have hfail' : chunkFails api (i + 1 + k) (rest.getD k []) = true := by
            have e : i + (k + 1) = i + 1 + k := by omega
            simpa [e] using hfail
          have e2 : i + 1 + k = i + (k + 1) := by omega
          cases hdata : truthyData (check_business_registration (api i chunk)).data with
          | true =>
              have := ih k (i + 1)
                (acc ++ (check_business_registration (api i chunk)).data.getD []) hk' hprev' hfail'
              constructor
              · rw [show processChunks api (chunk :: rest) i acc
                    = processChunks api rest (i + 1)
                        (acc ++ (check_business_registration (api i chunk)).data.getD []) by
                  simp [processChunks, h0, hdata]]
                rw [this.1, e2]
                simp
              · rw [show callsMade api (chunk :: rest) i = chunk :: callsMade api rest (i + 1) by
                  simp [callsMade, h0]]
                rw [this.2]
                simp [List.take_cons]
          | false =>
              have := ih k (i + 1) acc hk' hprev' hfail'
              constructor
              · rw [show processChunks api (chunk :: rest) i acc
                    = processChunks api rest (i + 1) acc by
                  simp [processChunks, h0, hdata]]
                rw [this.1, e2]
                simp
              · rw [show callsMade api (chunk :: rest) i = chunk :: callsMade api rest (i + 1) by
                  simp [callsMade, h0]]
                rw [this.2]
                simp [List.take_cons]

theorem processChunks_shape {α : Type} (api : Nat → List String → HttpOutcome α) :
    ∀ (rest : List (List String)) (i : Nat) (acc : List α),
      (∃ recs, processChunks api rest i acc = (some recs, none)) ∨
      (∃ msg, msg ≠ "" ∧ processChunks api rest i acc = (none, some msg)) := by
  intro rest
  induction rest with
  | nil => intro i acc; exact Or.inl ⟨acc, rfl⟩
  | cons chunk rest ih =>
      intro i acc
      cases herr : truthyStr (check_business_registration (api i chunk)).error with
      | true =>
          obtain ⟨s, hs, hne⟩ := (truthyStr_iff _).mp herr
          refine Or.inr ⟨s, hne, ?_⟩
          have hts : truthyStr (some s) = true := by simp [truthyStr, hne]
          simp [processChunks, hs, hts]
      | false =>
          cases hdata : truthyData (check_business_registration (api i chunk)).data with
          | true =>
              have := ih (i + 1) (acc ++ (check_business_registration (api i chunk)).data.getD [])
              simpa [processChunks, herr, hdata] using this
          | false =>
              have := ih (i + 1) acc
              simpa [processChunks, herr, hdata] using this

/-! Claim theorems. -/

/-- Claim C1: for a non-empty input list, process_api_calls splits the
input into consecutive positional chunks of at most 100 elements; when
every chunk succeeds, the chunks sent are exactly those, there are
ceil(n/100) of them, each carries at most 100 identifiers, and their
concatenation in call order equals the input list. -/
theorem lookup_partitions_input {α : Type} (l : List String)
    (api : Nat → List String → HttpOutcome α) (_hne : l ≠ [])
    (hsucc : ∀ j, j < (b_number_chunks l).length →
      chunkFails api j ((b_number_chunks l).getD j []) = false) :
    api_calls_made l api = b_number_chunks l ∧
    (api_calls_made l api).length = (l.length + 99) / 100 ∧
    (∀ c, c ∈ api_calls_made l api → c.length ≤ 100) ∧
    (api_calls_made l api).flatten = l := by
  have h := processChunks_success api (b_number_chunks l) 0 []
    (by intro j hj; simpa using hsucc j hj)
  have hcalls : api_calls_made l api = b_number_chunks l := h.2
  refine ⟨hcalls, ?_, ?_, ?_⟩
  · rw [hcalls, b_number_chunks_length]
  · intro c hc
    rw [hcalls] at hc
    exact b_number_chunks_le_100 l c hc
  · rw [hcalls]
    exact b_number_chunks_flatten l

/-- Oracle example: every call returns HTTP 200 with a body holding
neither key. -/
def exApiOk : Nat → List String → HttpOutcome Nat :=
  fun _ _ => HttpOutcome.resp 200 ⟨none, none⟩

/-- Witness for C1 at a concrete 101-element input (two chunks). -/
theorem lookup_partitions_input_witness :
    api_calls_made (List.replicate 101 "1") exApiOk = b_number_chunks (List.replicate 101 "1") ∧
    (api_calls_made (List.replicate 101 "1") exApiOk).length = 2 ∧
    (api_calls_made (List.replicate 101 "1") exApiOk).flatten = List.replicate 101 "1" := by
  have h := lookup_partitions_input (List.replicate 101 "1") exApiOk (by decide) (by decide)
  exact ⟨h.1, by simpa using h.2.1, h.2.2.2⟩

/-- Claim C2: if the call for chunk k fails and every earlier chunk
succeeded, the chunks sent are exactly the first k+1; no call is made
for chunk k+1 or any later chunk. -/
theorem lookup_fail_fast {α : Type} (l : List String)
    (api : Nat → List String → HttpOutcome α) (k : Nat)
    (hk : k < (b_number_chunks l).length)
    (hprev : ∀ j, j < k → chunkFails api j ((b_number_chunks l).getD j []) = false)
    (hfail : chunkFails api k ((b_number_chunks l).getD k []) = true) :
    api_calls_made l api = (b_number_chunks l).take (k + 1) ∧
    (api_calls_made l api).length = k + 1 := by
  have h := processChunks_failure api (b_number_chunks l) k 0 [] hk
    (by intro j hj; simpa using hprev j hj) (by simpa using hfail)
  have hc : api_calls_made l api = (b_number_chunks l).take (k + 1) := h.2
  refine ⟨hc, ?_⟩
  rw [hc, List.length_take]
  omega

/-- Oracle example: the second call (index 1) answers HTTP 500, any
other call succeeds with one record. -/
def exApi500 : Nat → List String → HttpOutcome Nat :=
  fun i _ =>
    if i = 1 then HttpOutcome.resp 500 ⟨none, none⟩
    else HttpOutcome.resp 200 ⟨none, some [i]⟩

/-- Witness for C2: 250 identifiers, failure on the 2nd of 3 chunks,
exactly 2 calls are made. -/
theorem lookup_fail_fast_witness :
    api_calls_made (List.replicate 250 "1") exApi500 =
      (b_number_chunks (List.replicate 250 "1")).take (1 + 1) ∧
    (api_calls_made (List.replicate 250 "1") exApi500).length = 1 + 1 :=
  lookup_fail_fast (List.replicate 250 "1") exApi500 1 (by decide) (by decide) (by decide)

/-- Claim C3: when the call for chunk k fails after earlier successes,
process_api_calls discards every record accumulated so far (it returns
none, the embedding of the Python None result carrying no records) and
surfaces the failing call's error message. -/
theorem lookup_discards_on_failure {α : Type} (l : List String)
    (api : Nat → List String → HttpOutcome α) (k : Nat)
    (hk : k < (b_number_chunks l).length)
    (hprev : ∀ j, j < k → chunkFails api j ((b_number_chunks l).getD j []) = false)
    (hfail : chunkFails api k ((b_number_chunks l).getD k []) = true) :
    (process_api_calls l api).1 = none ∧
    ∃ msg, (process_api_calls l api).2 = some msg ∧ msg ≠ "" ∧
      (check_business_registration (api k ((b_number_chunks l).getD k []))).error = some msg := by
  have h := processChunks_failure api (b_number_chunks l) k 0 [] hk
    (by intro j hj; simpa using hprev j hj) (by simpa using hfail)
  have h1 : process_api_calls l api =
      (none, (check_business_registration (api (0 + k) ((b_number_chunks l).getD k []))).error) :=
    h.1
  rw [Nat.zero_add] at h1
  have hfail' : truthyStr
      (check_business_registration (api k ((b_number_chunks l).getD k []))).error = true := hfail
  obtain ⟨s, hs, hne⟩ := (truthyStr_iff _).mp hfail'
  refine ⟨by rw [h1], s, ?_, hne, hs⟩
  rw [h1]
  simpa using hs

/-- Witness for C3 at the 250-identifier, fail-on-2nd-chunk example. -/
theorem lookup_discards_on_failure_witness :
    (process_api_calls (List.replicate 250 "1") exApi500).1 = none ∧
    ∃ msg, (process_api_calls (List.replicate 250 "1") exApi500).2 = some msg ∧ msg ≠ "" ∧
      (check_business_registration
        (exApi500 1 ((b_number_chunks (List.replicate 250 "1")).getD 1 []))).error = some msg :=
  lookup_discards_on_failure (List.replicate 250 "1") exApi500 1 (by decide) (by decide) (by decide)

/-- Claim C4: a non-200 status maps to the fixed table entry for 400,
404, 411, 413 (batch-limit) and 500, regardless of the response body
(and hence of which chunk triggered it), and any status outside the
table maps to the generic message embedding the literal status code. -/
theorem status_message_table {α : Type} (body : ApiBody α) (N : Nat)
    (hN : N ≠ 200) (hunknown : STATUS_CODE_MESSAGES N = none) :
    (check_business_registration (HttpOutcome.resp 400 body)).error =
      some "잘못된 요청 형식입니다. (API 서버가 이해할 수 없는 요청)" ∧
    (check_business_registration (HttpOutcome.resp 404 body)).error =
      some "API 서비스를 찾을 수 없습니다. (경로 확인 필요)" ∧
    (check_business_registration (HttpOutcome.resp 411 body)).error =
      some "필수 요청 파라미터가 누락되었습니다." ∧
    (check_business_registration (HttpOutcome.resp 413 body)).error =
      some "요청 가능한 사업자번호 개수(100개)를 초과했습니다." ∧
    (check_business_registration (HttpOutcome.resp 500 body)).error =
      some "국세청 API 서버에 오류가 발생했습니다. 잠시 후 다시 시도해주세요." ∧
    ∃ p q, (check_business_registration (HttpOutcome.resp N body)).error =
      some (p ++ toString N ++ q) := by
  refine ⟨by simp [check_business_registration, STATUS_CODE_MESSAGES],
          by simp [check_business_registration, STATUS_CODE_MESSAGES],
          by simp [check_business_registration, STATUS_CODE_MESSAGES],
          by simp [check_business_registration, STATUS_CODE_MESSAGES],
          by simp [check_business_registration, STATUS_CODE_MESSAGES],
          "알 수 없는 오류가 발생했습니다. (상태 코드: ", ")", ?_⟩
  simp [check_business_registration, hN, hunknown]

/-- Witness for C4 at the unmapped status 503 with an empty body. -/
theorem status_message_table_witness :
    (check_business_registration (HttpOutcome.resp 400 (⟨none, none⟩ : ApiBody Nat))).error =
      some "잘못된 요청 형식입니다. (API 서버가 이해할 수 없는 요청)" ∧
    (check_business_registration (HttpOutcome.resp 404 (⟨none, none⟩ : ApiBody Nat))).error =
      some "API 서비스를 찾을 수 없습니다. (경로 확인 필요)" ∧
    (check_business_registration (HttpOutcome.resp 411 (⟨none, none⟩ : ApiBody Nat))).error =
      some "필수 요청 파라미터가 누락되었습니다." ∧
    (check_business_registration (HttpOutcome.resp 413 (⟨none, none⟩ : ApiBody Nat))).error =
      some "요청 가능한 사업자번호 개수(100개)를 초과했습니다." ∧
    (check_business_registration (HttpOutcome.resp 500 (⟨none, none⟩ : ApiBody Nat))).error =
      some "국세청 API 서버에 오류가 발생했습니다. 잠시 후 다시 시도해주세요." ∧
    ∃ p q, (check_business_registration (HttpOutcome.resp 503 (⟨none, none⟩ : ApiBody Nat))).error =
      some (p ++ toString 503 ++ q) :=
  status_message_table (⟨none, none⟩ : ApiBody Nat) 503 (by decide) (by decide)

/-- Claim C5: a transport failure with detail string e, reached after
earlier successful chunks, makes process_api_calls return an error
message containing e as a substring. -/
theorem transport_error_embeds_detail {α : Type} (l : List String)
    (api : Nat → List String → HttpOutcome α) (k : Nat) (e : String)
    (hk : k < (b_number_chunks l).length)
    (hprev : ∀ j, j < k → chunkFails api j ((b_number_chunks l).getD j []) = false)
    (houtcome : api k ((b_number_chunks l).getD k []) = HttpOutcome.exn e) :
    ∃ p q, (process_api_calls l api).2 = some (p ++ e ++ q) := by
  have hmsg : ("네트워크 오류 발생 (상세 정보): " ++ e) ≠ "" :=
    append_left_ne_empty _ _ (by decide)
  have hfail : chunkFails api k ((b_number_chunks l).getD k []) = true := by
    unfold chunkFails
    rw [houtcome]
    simp [check_business_registration, truthyStr, hmsg]
  have h := processChunks_failure api (b_number_chunks l) k 0 [] hk
    (by intro j hj; simpa using hprev j hj) (by simpa using hfail)
  have h1 : process_api_calls l api =
      (none, (check_business_registration (api (0 + k) ((b_number_chunks l).getD k []))).error) :=
    h.1
  rw [Nat.zero_add, houtcome] at h1
  refine ⟨"네트워크 오류 발생 (상세 정보): ", "", ?_⟩
  rw [h1]
  simp [check_business_registration, String.append_empty]

/-- Oracle example: every call raises a transport exception. -/
def exApiNet : Nat → List String → HttpOutcome Nat :=
  fun _ _ => HttpOutcome.exn "Connection timed out"

/-- Witness for C5 with a concrete timeout detail string. -/
theorem transport_error_embeds_detail_witness :
    ∃ p q, (process_api_calls ["1234567890"] exApiNet).2 =
      some (p ++ "Connection timed out" ++ q) :=
  transport_error_embeds_detail ["1234567890"] exApiNet 0 "Connection timed out"
    (by decide) (by decide) (by decide)

/-- Claim C6: normalization strips surrounding whitespace and removes
hyphen and space separators, and nothing else: the three sample tokens
all normalize to the same string, and the normalized tokens are passed
through as built. -/
theorem normalize_id_examples :
    normalize_id "123-45-67890" = "1234567890" ∧
    normalize_id " 12345 67890 " = "1234567890" ∧
    normalize_id "1234567890" = "1234567890" ∧
    lookup_direct_numbers ["123-45-67890", " 12345 67890 ", "1234567890"] =
      ["1234567890", "1234567890", "1234567890"] := by
  decide

/-- Claim C7: when every chunk succeeds, process_api_calls returns the
concatenation of the per-chunk record lists in chunk order, and no
error. -/
theorem lookup_success_returns_all_records {α : Type} (l : List String)
    (api : Nat → List String → HttpOutcome α)
    (hsucc : ∀ j, j < (b_number_chunks l).length →
      chunkFails api j ((b_number_chunks l).getD j []) = false) :
    process_api_calls l api = (some (collectData api (b_number_chunks l) 0), none) := by
  have h := processChunks_success api (b_number_chunks l) 0 []
    (by intro j hj; simpa using hsucc j hj)
  have h1 : process_api_calls l api =
      (some ([] ++ collectData api (b_number_chunks l) 0), none) := h.1
  simpa using h1

/-- Oracle example: call i succeeds with the two records 2i and 2i+1. -/
def exApiData : Nat → List String → HttpOutcome Nat :=
  fun i _ => HttpOutcome.resp 200 ⟨none, some [2 * i, 2 * i + 1]⟩

/-- Witness for C7 at a 150-element input (two chunks, four records). -/
theorem lookup_success_returns_all_records_witness :
    process_api_calls (List.replicate 150 "1") exApiData =
      (some (collectData exApiData (b_number_chunks (List.replicate 150 "1")) 0), none) ∧
    process_api_calls (List.replicate 150 "1") exApiData = (some [0, 1, 2, 3], none) := by
  have h := lookup_success_returns_all_records (List.replicate 150 "1") exApiData (by decide)
  exact ⟨h, by rw [h]; decide⟩

/-- Claim C8: for every input and every oracle in the modelled failure
taxonomy (transport exception, timeout, non-200 response, 200 body),
process_api_calls always returns a records-or-error pair: records with
no error, or no records with a non-empty error message. -/
theorem lookup_never_raises {α : Type} (l : List String)
    (api : Nat → List String → HttpOutcome α) :
    (∃ recs, process_api_calls l api = (some recs, none)) ∨
    (∃ msg, msg ≠ "" ∧ process_api_calls l api = (none, some msg)) :=
  processChunks_shape api (b_number_chunks l) 0 []

/-- Claim C9: an HTTP 200 response whose body carries a truthy error
key aborts the lookup with that message even though the call succeeded
at the HTTP level; when the body carries both a truthy error key and a
data key, the error branch takes precedence and the records are
discarded. -/
theorem error_key_takes_precedence {α : Type} (l : List String)
    (api : Nat → List String → HttpOutcome α) (k : Nat) (s : String) (recs : List α)
    (hk : k < (b_number_chunks l).length)
    (hprev : ∀ j, j < k → chunkFails api j ((b_number_chunks l).getD j []) = false)
    (hs : s ≠ "")
    (houtcome : api k ((b_number_chunks l).getD k []) =
      HttpOutcome.resp 200 ⟨some s, some recs⟩) :
    process_api_calls l api = (none, some s) ∧
    api_calls_made l api = (b_number_chunks l).take (k + 1) := by
  have hfail : chunkFails api k ((b_number_chunks l).getD k []) = true := by
    unfold chunkFails
    rw [houtcome]
    simp [check_business_registration, truthyStr, hs]
  have h := processChunks_failure api (b_number_chunks l) k 0 [] hk
    (by intro j hj; simpa using hprev j hj) (by simpa using hfail)
  have h1 : process_api_calls l api =
      (none, (check_business_registration (api (0 + k) ((b_number_chunks l).getD k []))).error) :=
    h.1
  rw [Nat.zero_add, houtcome] at h1
  refine ⟨?_, h.2⟩
  rw [h1]
  simp [check_business_registration]

/-- Oracle example: HTTP 200 whose body has both a truthy error key
and a data key. -/
def exApiErrKey : Nat → List String → HttpOutcome Nat :=
  fun _ _ => HttpOutcome.resp 200 ⟨some "quota exceeded", some [7]⟩

/-- Witness for C9: the record 7 is discarded, the body error message
is returned, one call is made. -/
theorem error_key_takes_precedence_witness :
    process_api_calls ["1111111111", "2222222222"] exApiErrKey = (none, some "quota exceeded") ∧
    api_calls_made ["1111111111", "2222222222"] exApiErrKey =
      (b_number_chunks ["1111111111", "2222222222"]).take (0 + 1) :=
  error_key_takes_precedence ["1111111111", "2222222222"] exApiErrKey 0 "quota exceeded" [7]
    (by decide) (by decide) (by decide) (by decide)

/-- Claim C10: a line whose strip is empty is dropped before lookup,
while a line whose non-whitespace characters are all hyphen or space
separators passes the emptiness filter and normalizes to the empty
string, so the empty identifier is included in the list sent to the
remote API. -/
theorem separator_only_line_passes_filter (lines : List String) (line w : String)
    (hmem : line ∈ lines) (hkeep : pyStrip line ≠ "") (hempty : normalize_id line = "")
    (hw : pyStrip w = "") :
    lookup_direct_numbers [w] = [] ∧
    line ∈ lines.filter (fun num => !(pyStrip num == "")) ∧
    "" ∈ lookup_direct_numbers lines := by
  have hfilter : line ∈ lines.filter (fun num => !(pyStrip num == "")) := by
    simp [List.mem_filter, hmem, hkeep]
  refine ⟨?_, hfilter, List.mem_map.mpr ⟨line, hfilter, hempty⟩⟩
  simp [lookup_direct_numbers, List.filter, hw]

/-- Witness for C10 with the separator-only line of three hyphens and
a whitespace-only line. -/
theorem separator_only_line_passes_filter_witness :
    lookup_direct_numbers ["   "] = [] ∧
    "---" ∈ (["---", "123"] : List String).filter (fun num => !(pyStrip num == "")) ∧
    "" ∈ lookup_direct_numbers ["---", "123"] :=
  separator_only_line_passes_filter ["---", "123"] "---" "   "
    (by decide) (by decide) (by decide) (by decide)
